import Mathlib

/-!
Verification development for the `zim` crate: a read-only ZIM archive
decoder (header, offset tables, directory entries, clusters) plus the
`extract_zim` path-composition logic.

The Rust sources are shallowly embedded: machine integers are `Nat` with
explicit wrap/overflow handling where the source's integer width matters,
fallible operations return an explicit result type, and a Rust panic
(slice index out of range, arithmetic overflow with debug assertions,
`unwrap` on `None`, a failed `assert!`) is modelled by the `RR.crash`
outcome. The memory-mapped file is modelled by `ByteView` (a length and a
byte function); in-memory vectors are `List Nat` of byte values.
-/

/-- Error type of the crate (src/src/errors.rs), extended with the
variants referenced by the newer modules (`InvalidNamespace` in
src/src/namespace.rs, `MissingChecksum` / `InvalidChecksum` in
src/src/zim.rs).  The boxed causes of `ParsingError` (io errors, UTF-8
errors, bitreader errors, the "No such Mimetype" message) are collapsed
into the single `ParsingError` constructor. -/
inductive ZErr where
  | UnknownCompression
  | UnknownMimeType
  | InvalidMagicNumber
  | InvalidVersion
  | InvalidHeader
  | InvalidClusterExtension
  | MissingBlobList
  | OutOfBounds
  | InvalidNamespace
  | MissingChecksum
  | InvalidChecksum
  | ParsingError
  deriving DecidableEq, Repr

/-- Outcome of running a piece of Rust code: a value, an `Err` of the
crate's error type, or a panic/abort (`crash`). -/
inductive RR (α : Type) where
  | ok (a : α)
  | err (e : ZErr)
  | crash
  deriving DecidableEq, Repr

namespace RR

def bindRR {α β : Type} (x : RR α) (f : α → RR β) : RR β :=
  match x with
  | .ok a => f a
  | .err e => .err e
  | .crash => .crash

instance : Monad RR where
  pure := RR.ok
  bind := bindRR

def isErr {α : Type} : RR α → Bool
  | .err _ => true
  | _ => false

end RR

/-- The memory-mapped archive: a byte sequence of length `len` whose
`i`-th byte is `byte i` (only indices `< len` are meaningful). -/
structure ByteView where
  len : Nat
  byte : Nat → Nat

/-- Wrap a concrete list of bytes as a `ByteView`. -/
def ByteView.ofList (l : List Nat) : ByteView :=
  { len := l.length, byte := fun i => l.getD i 0 }

/-- Little-endian 16-bit value at absolute offset `p`. -/
def u16at (v : ByteView) (p : Nat) : Nat :=
  v.byte p + 2 ^ 8 * v.byte (p + 1)

/-- Little-endian 32-bit value at absolute offset `p`. -/
def u32at (v : ByteView) (p : Nat) : Nat :=
  v.byte p + 2 ^ 8 * v.byte (p + 1) + 2 ^ 16 * v.byte (p + 2) +
    2 ^ 24 * v.byte (p + 3)

/-- Little-endian 64-bit value at absolute offset `p`. -/
def u64at (v : ByteView) (p : Nat) : Nat :=
  u32at v p + 2 ^ 32 * u32at v (p + 4)

/-- `Cursor::read_u8`: returns the byte and the new position, or an io
error (collapsed to `ParsingError`) past the end. -/
def readU8 (v : ByteView) (p : Nat) : RR (Nat × Nat) :=
  if p + 1 ≤ v.len then .ok (v.byte p, p + 1) else .err .ParsingError

/-- `Cursor::read_u16::<LittleEndian>`. -/
def readU16 (v : ByteView) (p : Nat) : RR (Nat × Nat) :=
  if p + 2 ≤ v.len then .ok (u16at v p, p + 2) else .err .ParsingError

/-- `Cursor::read_u32::<LittleEndian>`. -/
def readU32 (v : ByteView) (p : Nat) : RR (Nat × Nat) :=
  if p + 4 ≤ v.len then .ok (u32at v p, p + 4) else .err .ParsingError

/-- `Cursor::read_u64::<LittleEndian>`. -/
def readU64 (v : ByteView) (p : Nat) : RR (Nat × Nat) :=
  if p + 8 ≤ v.len then .ok (u64at v p, p + 8) else .err .ParsingError

/-- Read `n` raw bytes (the 16 `read_u8` calls filling the uuid). -/
def readBytesN (v : ByteView) (p : Nat) : Nat → RR (List Nat × Nat)
  | 0 => .ok ([], p)
  | n + 1 =>
    match readU8 v p with
    | .ok (b, p2) =>
      match readBytesN v p2 n with
      | .ok (rest, pe) => .ok (b :: rest, pe)
      | .err e => .err e
      | .crash => .crash
    | .err e => .err e
    | .crash => .crash

/-- Helper for `BufRead::read_until(0, ..)` on a cursor: consumes bytes up
to and including the first `0`, or up to end of data; never fails.  The
fuel is `v.len - p`, which bounds the number of bytes left. -/
def readUntilZeroGo (v : ByteView) : Nat → Nat → List Nat × Nat
  | 0, p => ([], p)
  | fuel + 1, p =>
    if p < v.len then
      if v.byte p = 0 then ([0], p + 1)
      else
        let r := readUntilZeroGo v fuel (p + 1)
        (v.byte p :: r.1, r.2)
    else ([], p)

/-- `read_until(0, &mut vec)`: the consumed bytes (delimiter included when
found) and the new position. -/
def readUntilZero (v : ByteView) (p : Nat) : List Nat × Nat :=
  readUntilZeroGo v (v.len - p) p

/-- UTF-8 decoding as validated by `String::from_utf8` (RFC 3629 ranges,
surrogates and values above `0x10FFFF` rejected).  Produces the decoded
code points, or `none` on invalid input. -/
def utf8Decode : List Nat → Option (List Char)
  | [] => some []
  | b :: rest =>
    if b < 0x80 then
      (utf8Decode rest).map (fun cs => Char.ofNat b :: cs)
    else if 0xC2 ≤ b ∧ b ≤ 0xDF then
      match rest with
      | c :: rest2 =>
        if 0x80 ≤ c ∧ c ≤ 0xBF then
          (utf8Decode rest2).map
            (fun cs => Char.ofNat ((b - 0xC0) * 64 + (c - 0x80)) :: cs)
        else none
      | [] => none
    else if 0xE0 ≤ b ∧ b ≤ 0xEF then
      match rest with
      | c :: d :: rest2 =>
        let lo := if b = 0xE0 then 0xA0 else 0x80
        let hi := if b = 0xED then 0x9F else 0xBF
        if (lo ≤ c ∧ c ≤ hi) ∧ (0x80 ≤ d ∧ d ≤ 0xBF) then
          (utf8Decode rest2).map
            (fun cs =>
              Char.ofNat ((b - 0xE0) * 4096 + (c - 0x80) * 64 + (d - 0x80)) :: cs)
        else none
      | _ => none
    else if 0xF0 ≤ b ∧ b ≤ 0xF4 then
      match rest with
      | c :: d :: e :: rest2 =>
        let lo := if b = 0xF0 then 0x90 else 0x80
        let hi := if b = 0xF4 then 0x8F else 0xBF
        if (lo ≤ c ∧ c ≤ hi) ∧ (0x80 ≤ d ∧ d ≤ 0xBF) ∧ (0x80 ≤ e ∧ e ≤ 0xBF) then
          (utf8Decode rest2).map
            (fun cs =>
              Char.ofNat
                ((b - 0xF0) * 262144 + (c - 0x80) * 4096 + (d - 0x80) * 64 +
                  (e - 0x80)) :: cs)
        else none
      | _ => none
    else none

/-- `String::from_utf8` on a byte vector. -/
def stringFromUtf8 (l : List Nat) : Option String :=
  (utf8Decode l).map String.mk

/-- MIME kind of a directory entry (src/src/mime_type.rs). -/
inductive MimeType where
  | Redirect
  | LinkTarget
  | DeletedEntry
  | Type (s : String)
  deriving DecidableEq, Repr

/-- Target of a directory entry (src/src/target.rs). -/
inductive Target where
  | Redirect (urlIndex : Nat)
  | Cluster (clusterIndex blobIndex : Nat)
  deriving DecidableEq, Repr

/-- Namespaces of the ZIM format (src/src/namespace.rs). -/
inductive Namespace where
  | Layout
  | Articles
  | ArticleMetaData
  | ImagesFile
  | ImagesText
  | Metadata
  | CategoriesText
  | CategoriesArticleList
  | CategoriesArticle
  | FulltextIndex
  deriving DecidableEq, Repr

/-- The `repr(u8)` discriminant of a namespace (its ASCII byte). -/
def Namespace.toByte : Namespace → Nat
  | .Layout => 45
  | .Articles => 65
  | .ArticleMetaData => 66
  | .ImagesFile => 73
  | .ImagesText => 74
  | .Metadata => 77
  | .CategoriesText => 85
  | .CategoriesArticleList => 86
  | .CategoriesArticle => 87
  | .FulltextIndex => 88

/-- `Namespace::try_from(u8)` (src/src/namespace.rs): validates a byte
against the closed namespace set, failing with `InvalidNamespace`. -/
def namespace_try_from (b : Nat) : Except ZErr Namespace :=
  if b = 45 then .ok .Layout
  else if b = 65 then .ok .Articles
  else if b = 66 then .ok .ArticleMetaData
  else if b = 73 then .ok .ImagesFile
  else if b = 74 then .ok .ImagesText
  else if b = 77 then .ok .Metadata
  else if b = 85 then .ok .CategoriesText
  else if b = 86 then .ok .CategoriesArticleList
  else if b = 87 then .ok .CategoriesArticle
  else if b = 88 then .ok .FulltextIndex
  else .error .InvalidNamespace

/-- A decoded directory entry (src/src/directory_entry.rs).  The decoder
in the sources stores the raw namespace byte as a `char`
(`std::char::from_u32(namespace as u32).unwrap()`); it is kept here as
`nspace : Char` (`namespace` is a Lean keyword). -/
structure DirEntry where
  mime_type : MimeType
  nspace : Char
  revision : Option Nat
  url : String
  title : String
  target : Option Target
  deriving DecidableEq, Repr

/-- `Zim::get_mimetype` (src/src/zim.rs): reserved sentinels, then a
dictionary lookup; out-of-range ids give `None`. -/
def get_mimetype (mime_table : List String) (id : Nat) : Option MimeType :=
  if id = 0xffff then some .Redirect
  else if id = 0xfffe then some .LinkTarget
  else if id = 0xfffd then some .DeletedEntry
  else if h : id < mime_table.length then some (.Type (mime_table.get ⟨id, h⟩))
  else none

/-- Read one zero-terminated string field of a directory entry: the
`read_until(0, ..)` / `truncate(size - 1)` / `String::from_utf8` block.
`truncate(size - 1)` underflows (debug abort) when `read_until` returned
`0` bytes, i.e. at end of data. -/
def readEntryString (v : ByteView) (p : Nat) : RR (String × Nat) :=
  let r := readUntilZero v p
  let size := r.1.length
  if size = 0 then .crash
  else
    match stringFromUtf8 (r.1.take (size - 1)) with
    | some s => .ok (s, r.2)
    | none => .err .ParsingError

/-- `DirectoryEntry::new` (src/src/directory_entry.rs): decode the entry
starting at absolute offset `p0` of the archive view, resolving the MIME
id through the archive's mime table. -/
def directory_entry_new (mime_table : List String) (v : ByteView) (p0 : Nat) :
    RR DirEntry :=
  match readU16 v p0 with
  | .err e => .err e
  | .crash => .crash
  | .ok (mime_id, p1) =>
    match get_mimetype mime_table mime_id with
    | none => .err .ParsingError
    | some mime_type =>
      match readU8 v p1 with
      | .err e => .err e
      | .crash => .crash
      | .ok (_, p2) =>
        match readU8 v p2 with
        | .err e => .err e
        | .crash => .crash
        | .ok (ns, p3) =>
          -- `cur.read_u32().ok()`: a failed read consumes the rest of
          -- the cursor and yields `None` for the revision.
          let rev : Option Nat × Nat :=
            match readU32 v p3 with
            | .ok (r, p4) => (some r, p4)
            | _ => (none, v.len)
          let p4 := rev.2
          let tgt : RR (Option Target × Nat) :=
            if mime_type = .Redirect then
              match readU32 v p4 with
              | .ok (t, p5) => .ok (some (.Redirect t), p5)
              | .err e => .err e
              | .crash => .crash
            else if mime_type = .LinkTarget ∨ mime_type = .DeletedEntry then
              .ok (none, p4)
            else
              match readU32 v p4 with
              | .ok (c, p5) =>
                match readU32 v p5 with
                | .ok (b, p6) => .ok (some (.Cluster c b), p6)
                | .err e => .err e
                | .crash => .crash
              | .err e => .err e
              | .crash => .crash
          match tgt with
          | .err e => .err e
          | .crash => .crash
          | .ok (target, p5) =>
            match readEntryString v p5 with
            | .err e => .err e
            | .crash => .crash
            | .ok (url, p6) =>
              match readEntryString v p6 with
              | .err e => .err e
              | .crash => .crash
              | .ok (title, _) =>
                .ok { mime_type := mime_type, nspace := Char.ofNat ns,
                      revision := rev.1, url := url, title := title,
                      target := target }

/-! ## Cluster decoding (src/src/cluster.rs) -/

/-- Compression modes of a cluster. -/
inductive Compression where
  | None
  | LZMA2
  deriving DecidableEq, Repr

/-- `Compression::from(raw)`: `0` and `1` mean no compression, `4` is
LZMA2, anything else is `UnknownCompression`. -/
def compression_from (raw : Nat) : Except ZErr Compression :=
  if raw = 0 then .ok .None
  else if raw = 1 then .ok .None
  else if raw = 4 then .ok .LZMA2
  else .error .UnknownCompression

/-- `parse_details`: the descriptor byte, read MSB-first with a
`BitReader`; after skipping three bits, bit 4 (value `16`) is the
extended flag and the low four bits are the compression. -/
def parse_details (details : Nat) : Except ZErr (Bool × Compression) :=
  match compression_from (details % 16) with
  | .ok c => .ok (details / 16 % 2 = 1, c)
  | .error e => .error e

/-- Little-endian 32-bit value at position `p` of an in-memory buffer. -/
def l32at (l : List Nat) (p : Nat) : Nat :=
  l.getD p 0 + 2 ^ 8 * l.getD (p + 1) 0 + 2 ^ 16 * l.getD (p + 2) 0 +
    2 ^ 24 * l.getD (p + 3) 0

/-- Little-endian 64-bit value at position `p` of an in-memory buffer. -/
def l64at (l : List Nat) (p : Nat) : Nat :=
  l32at l p + 2 ^ 32 * l32at l (p + 4)

/-- `read_u32::<LittleEndian>` on a cursor over an in-memory buffer. -/
def lread32 (l : List Nat) (p : Nat) : RR (Nat × Nat) :=
  if p + 4 ≤ l.length then .ok (l32at l p, p + 4) else .err .ParsingError

/-- `read_u64::<LittleEndian>` on a cursor over an in-memory buffer. -/
def lread64 (l : List Nat) (p : Nat) : RR (Nat × Nat) :=
  if p + 8 ≤ l.length then .ok (l64at l p, p + 8) else .err .ParsingError

/-- The `for _ in 0..(count - 1)` loop of `parse_blob_list`, reading one
offset (of the width selected by `extended`) per iteration. -/
def blobLoop (l : List Nat) (extended : Bool) : Nat → Nat → RR (List Nat)
  | _, 0 => .ok []
  | p, n + 1 =>
    match (if extended then lread64 l p else lread32 l p) with
    | .ok (x, p2) =>
      match blobLoop l extended p2 n with
      | .ok rest => .ok (x :: rest)
      | .err e => .err e
      | .crash => .crash
    | .err e => .err e
    | .crash => .crash

/-- `parse_blob_list` (src/src/cluster.rs): reads the first offset, infers
the blob count as `first / offset_width`, then reads `count - 1` further
offsets.  When `count = 0` the source evaluates `count as usize - 1`,
which underflows: debug builds abort (modelled as `crash`; release builds
instead loop over the wrapped count until the cursor is exhausted). -/
def parse_blob_list (l : List Nat) (extended : Bool) : RR (List Nat) :=
  match (if extended then lread64 l 0 else lread32 l 0) with
  | .ok (first, p) =>
    let count := if extended then first / 8 else first / 4
    if count = 0 then .crash
    else
      match blobLoop l extended p (count - 1) with
      | .ok rest => .ok (first :: rest)
      | .err e => .err e
      | .crash => .crash
  | .err e => .err e
  | .crash => .crash

/-- State of `InnerCluster` (src/src/cluster.rs).  `stop` is the source's
`end` field (a Lean keyword); `view` is the cluster's sub-slice of the
mapped file, materialised as a byte list. -/
structure InnerCluster where
  extended : Bool
  compression : Compression
  start : Nat
  stop : Nat
  size : Nat
  view : List Nat
  blob_list : Option (List Nat)
  decompressed : Option (List Nat)
  deriving DecidableEq, Repr

/-- Rust slice `&l[a..b]`: panics (crash) unless `a ≤ b ≤ l.length`. -/
def listSlice (l : List Nat) (a b : Nat) : RR (List Nat) :=
  if a ≤ b ∧ b ≤ l.length then .ok ((l.drop a).take (b - a)) else .crash

/-- `InnerCluster::new`: locate the cluster's `[start, end)` range (the
end is the next cluster's offset, or `checksum_pos` for the last
cluster), slice the view, parse the descriptor byte, reject extended
clusters outside major version 6, and for uncompressed clusters parse
the blob list eagerly from `view[1..]`. -/
def inner_cluster_new (master : List Nat) (cluster_list : List Nat) (idx : Nat)
    (checksum_pos : Nat) (version : Nat) : RR InnerCluster :=
  match cluster_list.get? idx with
  | none => .crash
  | some start =>
    let stop := if idx < cluster_list.length - 1
      then cluster_list.getD (idx + 1) 0 else checksum_pos
    if start < stop then
      let cluster_size := stop - start
      match listSlice master start stop with
      | .crash => .err .OutOfBounds
      | .err e => .err e
      | .ok cluster_view =>
        match cluster_view.get? 0 with
        | none => .err .OutOfBounds
        | some d =>
          match parse_details d with
          | .error e => .err e
          | .ok (extended, compression) =>
            if extended ∧ version ≠ 6 then .err .InvalidClusterExtension
            else
              match (if compression = .None
                then (parse_blob_list (cluster_view.drop 1) extended).bindRR
                  (fun bl => .ok (some bl))
                else .ok none) with
              | .err e => .err e
              | .crash => .crash
              | .ok blob_list =>
                .ok { extended := extended, compression := compression,
                      start := start, stop := stop, size := cluster_size,
                      view := cluster_view, blob_list := blob_list,
                      decompressed := none }
    else .crash

/-- `InnerCluster::needs_decompression`. -/
def needs_decompression (c : InnerCluster) : Bool :=
  match c.compression with
  | .LZMA2 => c.decompressed.isNone || c.blob_list.isNone
  | .None => false

/-- `InnerCluster::decompress`, with the `xz2` stream decoder abstracted
as the oracle `xz` (`none` models an io error from `read_to_end`).  The
first step fills `decompressed` if absent; the second parses the blob
list from the decompressed buffer if absent.  Uncompressed clusters are
untouched by both steps. -/
def decompress (xz : List Nat → Option (List Nat)) (c : InnerCluster) :
    RR InnerCluster :=
  match c.compression with
  | .None => .ok c
  | .LZMA2 =>
    let step1 : RR InnerCluster :=
      match c.decompressed with
      | some _ => .ok c
      | none =>
        match xz (c.view.drop 1) with
        | some d => .ok { c with decompressed := some d }
        | none => .err .ParsingError
    match step1 with
    | .err e => .err e
    | .crash => .crash
    | .ok c2 =>
      match c2.blob_list with
      | some _ => .ok c2
      | none =>
        match c2.decompressed with
        | none => .crash
        | some d =>
          match parse_blob_list d c2.extended with
          | .ok bl => .ok { c2 with blob_list := some bl }
          | .err e => .err e
          | .crash => .crash

/-- `InnerCluster::get_blob`: look up `[offsets[idx], offsets[idx+1])`,
falling back to `self.size` as the upper bound for the final entry, and
slice the decompressed buffer (LZMA2) or `view[1 + start .. 1 + end]`
(uncompressed). -/
def inner_get_blob (c : InnerCluster) (idx : Nat) : RR (List Nat) :=
  match c.blob_list with
  | none => .err .MissingBlobList
  | some list =>
    match list.get? idx with
    | none => .crash
    | some s =>
      let n := idx + 1
      let e := match list.get? n with
        | some x => x
        | none => c.size
      match c.compression with
      | .LZMA2 =>
        match c.decompressed with
        | none => .crash
        | some d => listSlice d s e
      | .None => listSlice c.view (1 + s) (1 + e)

/-- `Cluster::get_blob`: ensure decompression when needed, then read the
blob from the (possibly updated) inner state; returns the state the blob
was read from together with the bytes. -/
def cluster_get_blob (xz : List Nat → Option (List Nat)) (c : InnerCluster)
    (idx : Nat) : RR (InnerCluster × List Nat) :=
  match (if needs_decompression c then decompress xz c else .ok c) with
  | .err e => .err e
  | .crash => .crash
  | .ok c2 =>
    match inner_get_blob c2 idx with
    | .ok b => .ok (c2, b)
    | .err e => .err e
    | .crash => .crash

/-! ## Archive facade (src/src/zim.rs, src/src/directory_iterator.rs) -/

/-- `ZIM_MAGIC_NUMBER`. -/
def ZIM_MAGIC_NUMBER : Nat := 72173914

/-- The fixed archive header (src/src/zim.rs `ZimHeader`). -/
structure ZimHeader where
  version_major : Nat
  version_minor : Nat
  uuid : List Nat
  article_count : Nat
  cluster_count : Nat
  url_ptr_pos : Nat
  title_ptr_pos : Nat
  cluster_ptr_pos : Nat
  mime_list_pos : Nat
  main_page : Option Nat
  layout_page : Option Nat
  checksum_pos : Nat
  geo_index_pos : Option Nat
  deriving DecidableEq, Repr

/-- The parsed archive (src/src/zim.rs `Zim`): header, the mapped view,
the mime table and the three offset tables, plus the stored checksum. -/
structure ZimSt where
  header : ZimHeader
  view : ByteView
  mime_table : List String
  url_list : List Nat
  article_list : List Nat
  cluster_list : List Nat
  checksum : List Nat

/-- `is_defined`: the `0xffffffff` sentinel maps to `None`. -/
def is_defined (val : Nat) : Option Nat :=
  if val = 0xffffffff then none else some val

/-- The mime-table loop of `parse_header`: reads zero-terminated strings
until an entry of at most one byte (empty string or end of data).  The
`read_until` on a slice cursor never fails, so `if let Ok(size)` always
takes the `Ok` branch.  Fuel bounds the number of iterations; callers
pass `v.len + 1`, which suffices since every kept entry consumes at
least two bytes. -/
def mimeTableLoop (v : ByteView) : Nat → Nat → RR (List String)
  | 0, _ => .ok []
  | fuel + 1, p =>
    let r := readUntilZero v p
    let size := r.1.length
    if size ≤ 1 then .ok []
    else
      match stringFromUtf8 (r.1.take (size - 1)) with
      | none => .err .ParsingError
      | some s =>
        match mimeTableLoop v fuel r.2 with
        | .ok rest => .ok (s :: rest)
        | .err e => .err e
        | .crash => .crash

/-- `parse_header` (src/src/zim.rs): magic check, version check, the
fixed fields in order, the cursor-at-80 check, the optional
`geo_index_pos` (present iff `mime_list_pos > 80`), and the mime table
read from the current cursor position. -/
def parse_header (v : ByteView) : RR (ZimHeader × List String) := do
  let (magic, p) ← readU32 v 0
  if magic = ZIM_MAGIC_NUMBER then do
    let (version_major, p) ← readU16 v p
    if version_major = 5 ∨ version_major = 6 then do
      let (version_minor, p) ← readU16 v p
      let (uuid, p) ← readBytesN v p 16
      let (article_count, p) ← readU32 v p
      let (cluster_count, p) ← readU32 v p
      let (url_ptr_pos, p) ← readU64 v p
      let (title_ptr_pos, p) ← readU64 v p
      let (cluster_ptr_pos, p) ← readU64 v p
      let (mime_list_pos, p) ← readU64 v p
      let (main_page, p) ← readU32 v p
      let (layout_page, p) ← readU32 v p
      let (checksum_pos, p) ← readU64 v p
      if p = 80 then do
        let (geo_index_pos, p) ←
          if 80 < mime_list_pos then do
            let (g, p2) ← readU64 v p
            pure (some g, p2)
          else pure ((none : Option Nat), p)
        let mime_table ← mimeTableLoop v (v.len + 1) p
        pure ({ version_major := version_major, version_minor := version_minor,
                uuid := uuid, article_count := article_count,
                cluster_count := cluster_count, url_ptr_pos := url_ptr_pos,
                title_ptr_pos := title_ptr_pos,
                cluster_ptr_pos := cluster_ptr_pos,
                mime_list_pos := mime_list_pos,
                main_page := is_defined main_page,
                layout_page := is_defined layout_page,
                checksum_pos := checksum_pos,
                geo_index_pos := geo_index_pos }, mime_table)
      else .err .InvalidHeader
    else .err .InvalidVersion
  else .err .InvalidMagicNumber

/-- Read `count` 64-bit offsets from the slice `[base, base + limit)`;
`p` is the cursor position relative to the slice. -/
def u64ListLoop (v : ByteView) (base limit : Nat) : Nat → Nat → RR (List Nat)
  | _, 0 => .ok []
  | p, n + 1 =>
    if p + 8 ≤ limit then
      match u64ListLoop v base limit (p + 8) n with
      | .ok rest => .ok (u64at v (base + p) :: rest)
      | .err e => .err e
      | .crash => .crash
    else .err .ParsingError

/-- Read `count` 32-bit indices from the slice `[base, base + limit)`. -/
def u32ListLoop (v : ByteView) (base limit : Nat) : Nat → Nat → RR (List Nat)
  | _, 0 => .ok []
  | p, n + 1 =>
    if p + 4 ≤ limit then
      match u32ListLoop v base limit (p + 4) n with
      | .ok rest => .ok (u32at v (base + p) :: rest)
      | .err e => .err e
      | .crash => .crash
    else .err .ParsingError

/-- `parse_url_list` (src/src/zim.rs): the slice bounds are computed in
`u64` (`ptr_pos + count as u64 * 8`; a `u64` overflow aborts debug
builds), and a slice outside the file fails `OutOfBounds`. -/
def parse_url_list (v : ByteView) (ptr_pos count : Nat) : RR (List Nat) :=
  if 2 ^ 64 ≤ ptr_pos + count * 8 then .crash
  else
    let start := ptr_pos
    let stop := ptr_pos + count * 8
    if start ≤ stop ∧ stop ≤ v.len then
      u64ListLoop v start (stop - start) 0 count
    else .err .OutOfBounds

/-- `parse_article_list` (src/src/zim.rs): the end of the slice is
computed as `(ptr_pos as u32 + count * 4) as usize` — `ptr_pos` is
truncated to 32 bits and the arithmetic is `u32` (overflow aborts debug
builds) — while the start is the untruncated `ptr_pos`. -/
def parse_article_list (v : ByteView) (ptr_pos count : Nat) : RR (List Nat) :=
  if 2 ^ 32 ≤ count * 4 then .crash
  else if 2 ^ 32 ≤ ptr_pos % 2 ^ 32 + count * 4 then .crash
  else
    let start := ptr_pos
    let stop := ptr_pos % 2 ^ 32 + count * 4
    if start ≤ stop ∧ stop ≤ v.len then
      u32ListLoop v start (stop - start) 0 count
    else .err .OutOfBounds

/-- `parse_cluster_list` (src/src/zim.rs): same 32-bit truncation of
`ptr_pos` as `parse_article_list`, with 64-bit entries. -/
def parse_cluster_list (v : ByteView) (ptr_pos count : Nat) : RR (List Nat) :=
  if 2 ^ 32 ≤ count * 8 then .crash
  else if 2 ^ 32 ≤ ptr_pos % 2 ^ 32 + count * 8 then .crash
  else
    let start := ptr_pos
    let stop := ptr_pos % 2 ^ 32 + count * 8
    if start ≤ stop ∧ stop ≤ v.len then
      u64ListLoop v start (stop - start) 0 count
    else .err .OutOfBounds

/-- `read_checksum` (src/src/zim.rs): the 16 checksum bytes at
`checksum_pos`, or `MissingChecksum` when the range leaves the file. -/
def read_checksum (v : ByteView) (checksum_pos : Nat) : RR (List Nat) :=
  if checksum_pos + 16 ≤ v.len then
    .ok ((List.range 16).map (fun i => v.byte (checksum_pos + i)))
  else .err .MissingChecksum

/-- `Zim::new` (src/src/zim.rs): parse the header and mime table, then
the three offset tables at their declared positions, then the stored
checksum. -/
def zim_new (v : ByteView) : RR ZimSt := do
  let (header, mime_table) ← parse_header v
  let url_list ← parse_url_list v header.url_ptr_pos header.article_count
  let article_list ← parse_article_list v header.title_ptr_pos header.article_count
  let cluster_list ← parse_cluster_list v header.cluster_ptr_pos header.cluster_count
  let checksum ← read_checksum v header.checksum_pos
  pure { header := header, view := v, mime_table := mime_table,
         url_list := url_list, article_list := article_list,
         cluster_list := cluster_list, checksum := checksum }

/-- Decoding the directory entry at URL position `i`.  Both
`Zim::get_by_url_index` (`self.url_list[idx]` then
`master_view.split_at(offset)`) and `DirectoryIterator::next`
(`self.zim.url_list[..]` then `view.restrict(ptr, len - ptr)`) lower to
this: the `Vec` index panics when `i` is out of range, `split_at` /
`len - ptr` panic when the offset exceeds the file length, and the
suffix starting at the offset is handed to `DirectoryEntry::new`. -/
def decode_at (z : ZimSt) (i : Nat) : RR DirEntry :=
  match z.url_list.get? i with
  | none => .crash
  | some ptr =>
    if ptr ≤ z.view.len then directory_entry_new z.mime_table z.view ptr
    else .crash

/-- `Zim::get_by_url_index`. -/
def get_by_url_index (z : ZimSt) (i : Nat) : RR DirEntry :=
  decode_at z i

/-- One `DirectoryIterator::next` step from state `article_to_yield =
st`: past `article_count` it yields nothing; otherwise the entry is
decoded and a decode failure is converted to `None` by `.ok()`. -/
def di_next (z : ZimSt) (st : Nat) : RR (Option (DirEntry × Nat)) :=
  if st < z.header.article_count then
    match decode_at z st with
    | .ok e => .ok (some (e, st + 1))
    | .err _ => .ok none
    | .crash => .crash
  else .ok none

/-- Driving the iterator to completion from state `st`: the sequence of
entries yielded before the first `None` (how `for` loops, `collect` and
`count` consume an iterator).  One fuel unit per step;
`article_count` steps always suffice. -/
def iterFrom (z : ZimSt) : Nat → Nat → RR (List DirEntry)
  | _, 0 => .ok []
  | st, fuel + 1 =>
    match di_next z st with
    | .ok none => .ok []
    | .ok (some (e, st2)) =>
      match iterFrom z st2 fuel with
      | .ok rest => .ok (e :: rest)
      | .err e2 => .err e2
      | .crash => .crash
    | .err e2 => .err e2
    | .crash => .crash

/-- `Zim::iterate_by_urls` run to completion. -/
def iterate_by_urls (z : ZimSt) : RR (List DirEntry) :=
  iterFrom z 0 z.header.article_count

/-! ## Destination paths (src/src/bin/extract_zim.rs `make_path`) -/

/-- `str::starts_with` on strings. -/
def strStarts (s pre : String) : Bool :=
  pre.toList.isPrefixOf s.toList

/-- The final component of a path (the part after the last `/`).  The
paths built by `make_path` always end in a nonempty component when the
URL does, which is the case for every input considered here. -/
def fileNameCh (l : List Char) : List Char :=
  (l.reverse.takeWhile (fun c => c ≠ '/')).reverse

/-- Split a file name into stem and extension following
`std::path::Path`: the extension is the part after the last `.`, and is
absent when there is no `.` or when the only `.` leads the name. -/
def extSplit (name : List Char) : Option (List Char × List Char) :=
  let extRev := name.reverse.takeWhile (fun c => c ≠ '.')
  if extRev.length = name.length then none
  else if name.length - extRev.length - 1 = 0 then none
  else some (name.take (name.length - extRev.length - 1), extRev.reverse)

/-- `Path::extension` of a path string. -/
def pathExt (p : String) : Option String :=
  (extSplit (fileNameCh p.toList)).map (fun x => String.mk x.2)

/-- `PathBuf::set_extension`: replace (or append) the extension of the
final component. -/
def setExt (p : String) (ext : String) : String :=
  let cs := p.toList
  let name := fileNameCh cs
  let dir := cs.take (cs.length - name.length)
  let stem := match extSplit name with
    | some x => x.1
    | none => name
  String.mk (dir ++ stem ++ '.' :: ext.toList)

/-- `Path::join`: appends with a separator; an absolute right operand
replaces the path. -/
def pathJoin (a b : String) : String :=
  if strStarts b "/" then b else a ++ "/" ++ b

/-- The MIME → extension table of `make_path`. -/
def mime_extension (typ : String) : Option String :=
  if typ = "text/html" then some "html"
  else if typ = "image/jpeg" then some "jpg"
  else if typ = "image/png" then some "png"
  else if typ = "image/gif" then some "gif"
  else if typ = "image/svg+xml" then some "svg"
  else if typ = "application/javascript" then some "js"
  else if typ = "text/css" then some "css"
  else if typ = "text/plain" then some "txt"
  else none

/-- The `root / namespace-char / url` part of `make_path`: the namespace
byte as a one-character component, and a URL beginning with `/` has that
first slash removed (`url.replacen("/", "", 1)` under the
`starts_with("/")` guard). -/
def joined_path (root : String) (ns : Namespace) (url : String) : String :=
  let s := String.mk [Char.ofNat ns.toByte]
  let url2 := if strStarts url "/" then String.mk (url.toList.drop 1) else url
  pathJoin (pathJoin root s) url2

/-- `make_path` (src/src/bin/extract_zim.rs): compose
`root / namespace / url`, then, for a dictionary MIME type present in
the extension table, call `set_extension` when the path has no extension
or its extension does not start with the mapped extension. -/
def make_path (root : String) (ns : Namespace) (url : String)
    (mime : MimeType) : String :=
  let path := joined_path root ns url
  match mime with
  | .Type typ =>
    match mime_extension typ with
    | some ext =>
      match pathExt path with
      | none => setExt path ext
      | some e => if strStarts e ext then path else setExt path ext
    | none => path
  | _ => path

/-! ## Concrete fixtures used by the claim theorems and witnesses -/

/-- Decompression oracle producing a 10-byte buffer whose leading offset
is `4` (so the parsed blob list is `[4]`). -/
def xzOracle1 : List Nat → Option (List Nat) := fun _ => some [4,0,0,0,9,8,7,6,5,5]

/-- Decompression oracle that always fails (never consulted for
uncompressed clusters). -/
def xzNone : List Nat → Option (List Nat) := fun _ => none

/-- A 6-byte LZMA2 cluster (descriptor `0x04`), as built by
`InnerCluster::new` from a 6-byte file with `cluster_list = [0]` and
`checksum_pos = 6`. -/
def lzCluster : InnerCluster :=
  { extended := false, compression := .LZMA2, start := 0, stop := 6, size := 6,
    view := [4,9,9,9,9,9], blob_list := none, decompressed := none }

/-- `lzCluster` after decompression through `xzOracle1`. -/
def lzClusterD : InnerCluster :=
  { lzCluster with
    blob_list := some [4]
    decompressed := some [4,0,0,0,9,8,7,6,5,5] }

/-- A 13-byte uncompressed cluster holding one real blob: offset table
`[8, 12]` followed by the four payload bytes `7,7,7,7`. -/
def unCluster2 : InnerCluster :=
  { extended := false, compression := .None, start := 0, stop := 13, size := 13,
    view := [0,8,0,0,0,12,0,0,0,7,7,7,7], blob_list := some [8,12],
    decompressed := none }

/-- A 6-byte uncompressed cluster whose blob list has a single entry
(first offset `4`, so the inferred count is `1`). -/
def unCluster1 : InnerCluster :=
  { extended := false, compression := .None, start := 0, stop := 6, size := 6,
    view := [0,4,0,0,0,9], blob_list := some [4], decompressed := none }

/-- A file of `2^32 + 8` zero bytes: large enough that offset tables at
position `2^32` lie entirely inside it. -/
def bigView : ByteView := { len := 2 ^ 32 + 8, byte := fun _ => 0 }

/-- A 4-byte file whose leading `u32` is not the ZIM magic number. -/
def vbad : ByteView := ByteView.ofList [1, 2, 3, 4]

/-- A directory entry whose namespace byte is `0x5A` (`'Z'`, outside the
namespace set): redirect MIME id `0xFFFF`, reserved byte, namespace,
revision `1`, redirect target `2`, URL `"a"`, title `"b"`. -/
def nsEntryBytes : List Nat := [255,255, 0, 90, 1,0,0,0, 2,0,0,0, 97,0, 98,0]

/-- A 20-byte directory entry: MIME id `0` (`"text/html"`), namespace
`'A'`, revision `1`, target `Cluster(2, 3)`, URL `"hi"`, empty title. -/
def bytes6 : List Nat := [0,0, 0, 65, 1,0,0,0, 2,0,0,0, 3,0,0,0, 104,105,0, 0]

/-- Header of the one-article fixture archives. -/
def hdr6 : ZimHeader :=
  { version_major := 5, version_minor := 0, uuid := List.replicate 16 0,
    article_count := 1, cluster_count := 0, url_ptr_pos := 0,
    title_ptr_pos := 0, cluster_ptr_pos := 0, mime_list_pos := 80,
    main_page := none, layout_page := none, checksum_pos := 0,
    geo_index_pos := none }

/-- An archive with one decodable entry at URL position `0`. -/
def z6 : ZimSt :=
  { header := hdr6, view := ByteView.ofList bytes6,
    mime_table := ["text/html"], url_list := [0], article_list := [0],
    cluster_list := [], checksum := [] }

/-- The decoded form of the entry stored in `z6` (and at position `0`
of `z10`). -/
def e6 : DirEntry :=
  { mime_type := .Type "text/html", nspace := 'A', revision := some 1,
    url := "hi", title := "", target := some (.Cluster 2 3) }

/-- An archive with two entries: position `0` decodes to `e6`, position
`1` points at two trailing bytes with MIME id `5` (not reserved and out
of range of the one-entry mime table), whose decode fails. -/
def z10 : ZimSt :=
  { header := { hdr6 with article_count := 2 },
    view := ByteView.ofList (bytes6 ++ [5, 0]),
    mime_table := ["text/html"], url_list := [0, 20], article_list := [0, 1],
    cluster_list := [], checksum := [] }

/-- An archive state whose `url_list` is empty. -/
def z7 : ZimSt :=
  { header := hdr6, view := ByteView.ofList [], mime_table := [],
    url_list := [], article_list := [], cluster_list := [], checksum := [] }

/-! ## General lemmas -/

@[simp] theorem RR.bind_ok {α β : Type} (a : α) (f : α → RR β) :
    (RR.ok a >>= f) = f a := rfl

@[simp] theorem RR.bind_err {α β : Type} (e : ZErr) (f : α → RR β) :
    ((RR.err e : RR α) >>= f) = RR.err e := rfl

@[simp] theorem RR.bind_crash {α β : Type} (f : α → RR β) :
    ((RR.crash : RR α) >>= f) = RR.crash := rfl

/-- A cluster that does not need decompression passes through
`decompress` unchanged. -/
theorem needs_false_decompress_id (xz : List Nat → Option (List Nat))
    (c : InnerCluster) (h : needs_decompression c = false) :
    decompress xz c = .ok c := by
  unfold needs_decompression at h
  unfold decompress
  cases hc : c.compression with
  | None => rfl
  | LZMA2 =>
    rw [hc] at h
    simp at h
    obtain ⟨h1, h2⟩ := h
    cases cd : c.decompressed with
    | none => rw [cd] at h1; simp [Option.isNone] at h1
    | some d =>
      cases cb : c.blob_list with
      | none => rw [cb] at h2; simp [Option.isNone] at h2
      | some bl => simp [cd, cb]

/-- A successful `decompress` leaves a state that does not need
decompression. -/
theorem decompress_ok_needs_false (xz : List Nat → Option (List Nat))
    (c c1 : InnerCluster) (h : decompress xz c = .ok c1) :
    needs_decompression c1 = false := by
  unfold decompress at h
  cases hc : c.compression with
  | None =>
    rw [hc] at h
    simp at h
    subst h
    simp [needs_decompression, hc]
  | LZMA2 =>
    rw [hc] at h
    cases cd : c.decompressed with
    | some d =>
      simp only [cd] at h
      cases cb : c.blob_list with
      | some bl =>
        simp only [cb] at h
        simp at h
        subst h
        simp [needs_decompression, hc, cd, cb]
      | none =>
        simp only [cb] at h
        cases hp : parse_blob_list d c.extended with
        | ok bl =>
          simp only [hp] at h
          simp at h
          subst h
          simp [needs_decompression, hc, cd]
        | err e => simp only [hp] at h; simp at h
        | crash => simp only [hp] at h; simp at h
    | none =>
      simp only [cd] at h
      cases hx : xz (c.view.drop 1) with
      | some d =>
        simp only [hx] at h
        cases cb : c.blob_list with
        | some bl =>
          simp only [cb] at h
          simp at h
          subst h
          simp [needs_decompression, hc, cd, cb]
        | none =>
          simp only [cb] at h
          cases hp : parse_blob_list d c.extended with
          | ok bl =>
            simp only [hp] at h
            simp at h
            subst h
            simp [needs_decompression]
          | err e => simp only [hp] at h; simp at h
          | crash => simp only [hp] at h; simp at h
      | none => simp only [hx] at h; simp at h

/-- Driving the iterator when every position in range decodes: the run
yields exactly the decoded entries. -/
theorem iterFromOk (z : ZimSt) :
    ∀ (L : List DirEntry) (st : Nat), st + L.length = z.header.article_count →
      (∀ j (h : j < L.length), decode_at z (st + j) = .ok (L.get ⟨j, h⟩)) →
      iterFrom z st L.length = .ok L := by
  intro L
  induction L with
  | nil => intro st _ _; rfl
  | cons e L ih =>
    intro st hsum H
    have hst : st < z.header.article_count := by
      simp only [List.length_cons] at hsum; omega
    have h0 : decode_at z st = .ok e := by
      have h := H 0 (by simp)
      simpa using h
    have hrest : iterFrom z (st + 1) L.length = .ok L := by
      apply ih
      · simp only [List.length_cons] at hsum; omega
      · intro j h
        have hx := H (j + 1) (by simpa using Nat.succ_lt_succ h)
        have harr : st + (j + 1) = st + 1 + j := by omega
        rw [harr] at hx
        exact hx
    show iterFrom z st (L.length + 1) = .ok (e :: L)
    simp [iterFrom, di_next, hst, h0, hrest]

/-- Driving the iterator when the first decode failure sits right after
the positions of `L`: the run stops there and yields exactly `L`. -/
theorem iterFromTrunc (z : ZimSt) :
    ∀ (L : List DirEntry) (st fuel : Nat),
      st + L.length < z.header.article_count →
      (∀ j (h : j < L.length), decode_at z (st + j) = .ok (L.get ⟨j, h⟩)) →
      (decode_at z (st + L.length)).isErr = true →
      L.length < fuel →
      iterFrom z st fuel = .ok L := by
  intro L
  induction L with
  | nil =>
    intro st fuel hk _ hfail hfuel
    obtain ⟨f, rfl⟩ : ∃ f, fuel = f + 1 := ⟨fuel - 1, by omega⟩
    have hst : st < z.header.article_count := by simpa using hk
    cases hd : decode_at z st with
    | ok e =>
      rw [show st + List.length [] = st from by simp] at hfail
      rw [hd] at hfail
      simp [RR.isErr] at hfail
    | err e => simp [iterFrom, di_next, hst, hd]
    | crash =>
      rw [show st + List.length [] = st from by simp] at hfail
      rw [hd] at hfail
      simp [RR.isErr] at hfail
  | cons e L ih =>
    intro st fuel hk H hfail hfuel
    obtain ⟨f, rfl⟩ : ∃ f, fuel = f + 1 := ⟨fuel - 1, by omega⟩
    have hst : st < z.header.article_count := by
      simp only [List.length_cons] at hk; omega
    have h0 : decode_at z st = .ok e := by
      have h := H 0 (by simp)
      simpa using h
    have hrest : iterFrom z (st + 1) f = .ok L := by
      apply ih
      · simp only [List.length_cons] at hk; omega
      · intro j h
        have hx := H (j + 1) (by simpa using Nat.succ_lt_succ h)
        have harr : st + (j + 1) = st + 1 + j := by omega
        rw [harr] at hx
        exact hx
      · have harr : st + (e :: L).length = st + 1 + L.length := by simp; omega
        rw [harr] at hfail
        exact hfail
      · simp only [List.length_cons] at hfuel; omega
    simp [iterFrom, di_next, hst, h0, hrest]

/-! ## Claim theorems -/

/-- Claim C1 (code bug): `get_blob` does not use the decompressed length
as the last blob's upper bound — it uses the cluster byte size in both
compression modes.  Concretely: a 6-byte LZMA2 cluster decompressing to
10 bytes with blob list `[4]` yields `decompressed[4..6] = [9, 8]`
instead of `decompressed[4..10] = [9, 8, 7, 6, 5, 5]`; and for
uncompressed clusters the fallback slices `view[1 + start .. 1 + size]`,
one byte past the `size`-byte view, so any access taking the fallback
(`get_blob 1` on the two-offset cluster, `get_blob 0` on the
single-entry cluster) is an out-of-range slice (panic). -/
theorem c1_get_blob_last_bound :
    inner_cluster_new [4,9,9,9,9,9] [0] 0 6 5 = .ok lzCluster ∧
    cluster_get_blob xzOracle1 lzCluster 0 = .ok (lzClusterD, [9,8]) ∧
    listSlice [4,0,0,0,9,8,7,6,5,5] 4 10 = .ok [9,8,7,6,5,5] ∧
    inner_cluster_new [0,8,0,0,0,12,0,0,0,7,7,7,7] [0] 0 13 5 = .ok unCluster2 ∧
    cluster_get_blob xzOracle1 unCluster2 0 = .ok (unCluster2, [7,7,7,7]) ∧
    cluster_get_blob xzOracle1 unCluster2 1 = .crash ∧
    inner_cluster_new [0,4,0,0,0,9] [0] 0 6 5 = .ok unCluster1 ∧
    cluster_get_blob xzOracle1 unCluster1 0 = .crash := by
  decide

/-- Claim C2 (code bug): `parse_blob_list` has no guard for a zero or
unaligned first offset.  A first offset of `0` gives blob count `0`, and
`count as usize - 1` underflows (abort under debug assertions; a release
build instead loops over the wrapped count until the cursor is
exhausted); an unaligned first offset `5` is accepted with count
`5 / 4 = 1`.  `MissingBlobList` is never produced here.  Well-formed
first offsets infer the count as `first / width` (4, or 8 when
extended). -/
theorem c2_blob_list_guard :
    parse_blob_list [0,0,0,0] false = .crash ∧
    parse_blob_list [5,0,0,0] false = .ok [5] ∧
    parse_blob_list [8,0,0,0,12,0,0,0] false = .ok [8,12] ∧
    parse_blob_list [16,0,0,0,0,0,0,0,24,0,0,0,0,0,0,0] true = .ok [16,24] := by
  decide

/-- Claim C3 (code bug): `parse_article_list` and `parse_cluster_list`
compute the slice end as `(ptr_pos as u32 + count * width) as usize`,
truncating the declared 64-bit position to 32 bits.  For a table at
position `2^32` inside a `2^32 + 8`-byte file the slice
`[2^32, 2^32 + width)` is entirely in bounds, yet both functions fail
`OutOfBounds` (the computed range is `[2^32, width)`).
`parse_url_list`, which keeps the arithmetic in `u64`, succeeds on the
same input. -/
theorem c3_table_position_truncation :
    parse_article_list bigView (2 ^ 32) 1 = .err .OutOfBounds ∧
    parse_cluster_list bigView (2 ^ 32) 1 = .err .OutOfBounds ∧
    2 ^ 32 + 4 ≤ bigView.len ∧ 2 ^ 32 + 8 ≤ bigView.len ∧
    parse_url_list bigView (2 ^ 32) 1 = .ok [0] := by
  decide

/-- Claim C4 (counterexample): an entry with MIME `text/html` and URL
`article.htm` is NOT left unchanged — `"htm"` does not start with
`"html"`, so `set_extension` rewrites the path to
`out/A/article.html`. -/
theorem c4_htm_unchanged_cex :
    make_path "out" .Articles "article.htm" (.Type "text/html") ≠
      "out/A/article.htm" := by
  decide

/-- Claim C4 (amended): `make_path` appends the mapped extension when the
URL has no extension, and also replaces an existing extension that does
not start with the mapped one: `article` and `article.htm` both map to
`<root>/A/article.html`, while `article.html` is left unchanged.  A MIME
type outside the mapping table, and the non-dictionary MIME kinds, leave
the composed path unchanged. -/
theorem c4_extension_mapping :
    make_path "out" .Articles "article" (.Type "text/html") = "out/A/article.html" ∧
    make_path "out" .Articles "article.htm" (.Type "text/html") = "out/A/article.html" ∧
    make_path "out" .Articles "article.html" (.Type "text/html") = "out/A/article.html" ∧
    (∀ root ns url typ, mime_extension typ = none →
      make_path root ns url (.Type typ) = joined_path root ns url) ∧
    (∀ root ns url, make_path root ns url .Redirect = joined_path root ns url) := by
  refine ⟨by decide, by decide, by decide, ?_, ?_⟩
  · intro root ns url typ h
    simp [make_path, h]
  · intro root ns url
    simp [make_path]

/-- Claim C4 witness: the unmapped-MIME conjunct of
`c4_extension_mapping` applied at MIME `application/pdf`. -/
theorem c4_extension_mapping_witness :
    mime_extension "application/pdf" = none ∧
    make_path "x" .ImagesFile "doc.bin" (.Type "application/pdf") =
      joined_path "x" .ImagesFile "doc.bin" :=
  ⟨by decide,
   c4_extension_mapping.2.2.2.1 "x" .ImagesFile "doc.bin" "application/pdf"
     (by decide)⟩

/-- Claim C5 (code bug): `DirectoryEntry::new` performs no namespace
validation — a directory entry whose namespace byte is `0x5A` (`'Z'`,
outside the closed set) decodes successfully — even though
`Namespace::try_from` rejects that byte with `InvalidNamespace`. -/
theorem c5_namespace_not_validated :
    directory_entry_new [] (ByteView.ofList nsEntryBytes) 0 =
      .ok { mime_type := .Redirect, nspace := 'Z', revision := some 1,
            url := "a", title := "b", target := some (.Redirect 2) } ∧
    namespace_try_from 90 = .error .InvalidNamespace :=
  ⟨rfl, rfl⟩

/-- Claim C6: when every URL position decodes successfully (to the
entries of `L`, which is as long as `article_count`), the URL iterator
yields exactly those entries in URL-pointer-list order: the `i`-th
yielded entry is the result of `get_by_url_index i`. -/
theorem c6_iterate_matches_url_index (z : ZimSt) (L : List DirEntry)
    (hlen : L.length = z.header.article_count)
    (H : ∀ i (h : i < L.length), get_by_url_index z i = .ok (L.get ⟨i, h⟩)) :
    iterate_by_urls z = .ok L := by
  have hall := iterFromOk z L 0 (by omega)
    (fun j h => by simpa [get_by_url_index] using H j h)
  unfold iterate_by_urls
  rw [← hlen]
  exact hall

/-- Claim C6 witness: on the one-entry archive `z6` the iterator yields
exactly `[e6]`, the value of `get_by_url_index z6 0`. -/
theorem c6_iterate_matches_url_index_witness : iterate_by_urls z6 = .ok [e6] :=
  c6_iterate_matches_url_index z6 [e6] rfl
    (fun i h => by
      simp only [List.length_singleton] at h
      have hi : i = 0 := Nat.lt_one_iff.mp h
      subst hi
      show get_by_url_index z6 0 = RR.ok e6
      decide)

/-- Claim C7 (counterexample): on an archive whose `url_list` is empty,
`get_by_url_index 0` is a panic (`self.url_list[idx]` index out of
bounds), not an `Err` result. -/
theorem c7_out_of_range_cex : get_by_url_index z7 0 = .crash := by decide

/-- Claim C7 (amended): for every index at or beyond the URL list's
length, `get_by_url_index` panics on the vector index — the
out-of-range case is not reachable as an error `Result` (the function's
own doc comment makes `idx < article_count` a precondition). -/
theorem c7_out_of_range_crashes (z : ZimSt) (i : Nat)
    (h : z.url_list.length ≤ i) : get_by_url_index z i = .crash := by
  unfold get_by_url_index decode_at
  rw [List.get?_eq_none.mpr h]

/-- Claim C7 witness: `c7_out_of_range_crashes` applied to `z7` at
index `3`. -/
theorem c7_out_of_range_crashes_witness :
    z7.url_list.length ≤ 3 ∧ get_by_url_index z7 3 = .crash :=
  ⟨by decide, c7_out_of_range_crashes z7 3 (by decide)⟩

/-- Claim C8: opening any file of at least 4 bytes whose leading
little-endian `u32` is not `72173914` fails with `InvalidMagicNumber`;
the magic check precedes the version fields, the MIME dictionary and
every offset table, so nothing else is parsed. -/
theorem c8_invalid_magic (v : ByteView) (h4 : 4 ≤ v.len)
    (hm : u32at v 0 ≠ ZIM_MAGIC_NUMBER) :
    zim_new v = .err .InvalidMagicNumber := by
  have h1 : readU32 v 0 = RR.ok (u32at v 0, 4) := by simp [readU32, h4]
  simp [zim_new, parse_header, h1, hm]

/-- Claim C8 witness: `c8_invalid_magic` applied to the 4-byte file
`[1, 2, 3, 4]`. -/
theorem c8_invalid_magic_witness :
    4 ≤ vbad.len ∧ u32at vbad 0 ≠ ZIM_MAGIC_NUMBER ∧
    zim_new vbad = .err .InvalidMagicNumber :=
  ⟨by decide, by decide, c8_invalid_magic vbad (by decide) (by decide)⟩

/-- Claim C9: decompression is idempotent — after a successful
`decompress` the state is fixed by a second `decompress` (the guards on
`decompressed` / `blob_list` skip recomputation) — and `get_blob` is
deterministic: a successful `get_blob` returns a state from which the
same call yields the identical bytes and state. -/
theorem c9_decompress_idempotent_get_blob_deterministic
    (xz : List Nat → Option (List Nat)) (c c1 : InnerCluster)
    (h : decompress xz c = .ok c1) :
    decompress xz c1 = .ok c1 ∧
    ∀ i c2 b, cluster_get_blob xz c i = .ok (c2, b) →
      cluster_get_blob xz c2 i = .ok (c2, b) := by
  refine ⟨needs_false_decompress_id xz c1 (decompress_ok_needs_false xz c c1 h), ?_⟩
  intro i c2 b h2
  unfold cluster_get_blob at h2 ⊢
  cases hn : needs_decompression c with
  | false =>
    rw [hn] at h2
    simp at h2
    cases hi : inner_get_blob c i with
    | ok bytes =>
      rw [hi] at h2
      simp at h2
      obtain ⟨rfl, rfl⟩ := h2
      rw [hn]
      simp [hi]
    | err e => rw [hi] at h2; simp at h2
    | crash => rw [hi] at h2; simp at h2
  | true =>
    rw [hn] at h2
    simp at h2
    cases hd : decompress xz c with
    | ok cP =>
      rw [hd] at h2
      simp at h2
      cases hi : inner_get_blob cP i with
      | ok bytes =>
        rw [hi] at h2
        simp at h2
        obtain ⟨rfl, rfl⟩ := h2
        rw [decompress_ok_needs_false xz c cP hd]
        simp [hi]
      | err e => rw [hi] at h2; simp at h2
      | crash => rw [hi] at h2; simp at h2
    | err e => rw [hd] at h2; simp at h2
    | crash => rw [hd] at h2; simp at h2

/-- Claim C9 witness: `c9_decompress_idempotent_get_blob_deterministic`
applied to the uncompressed cluster `unCluster2`. -/
theorem c9_witness :
    decompress xzNone unCluster2 = .ok unCluster2 ∧
    cluster_get_blob xzNone unCluster2 0 = .ok (unCluster2, [7,7,7,7]) :=
  ⟨(c9_decompress_idempotent_get_blob_deterministic xzNone unCluster2 unCluster2
      (by decide)).1,
   (c9_decompress_idempotent_get_blob_deterministic xzNone unCluster2 unCluster2
      (by decide)).2 0 unCluster2 [7,7,7,7] (by decide)⟩

/-- Claim C10: when the entry at URL position `k` fails to decode and all
earlier positions decode (to `L`, of length `k`), the iterator's `next`
converts the failure to `None` and the whole run yields exactly `L` —
positions beyond `k` are never reached, indistinguishable from a normal
end of data. -/
theorem c10_iterator_truncates_on_decode_failure (z : ZimSt)
    (L : List DirEntry) (k : Nat) (hlen : L.length = k)
    (hk : k < z.header.article_count)
    (H : ∀ j (h : j < L.length), get_by_url_index z j = .ok (L.get ⟨j, h⟩))
    (hfail : (get_by_url_index z k).isErr = true) :
    iterate_by_urls z = .ok L := by
  subst hlen
  apply iterFromTrunc z L 0 z.header.article_count
  · simpa using hk
  · intro j h
    simpa [get_by_url_index] using H j h
  · simpa [get_by_url_index] using hfail
  · omega

/-- Claim C10 witness: on `z10` (two entries; position `1` fails to
decode) the iterator yields only the first entry. -/
theorem c10_iterator_truncates_witness : iterate_by_urls z10 = .ok [e6] :=
  c10_iterator_truncates_on_decode_failure z10 [e6] 1 rfl (by decide)
    (fun j h => by
      simp only [List.length_singleton] at h
      have hj : j = 0 := Nat.lt_one_iff.mp h
      subst hj
      show get_by_url_index z10 0 = RR.ok e6
      decide)
    (by decide)
